import Mathlib

/-!
Verification of the conversion-session controller in `script.js`.

The script is a browser client that keeps an in-memory list of selected PDF
files (`appState.files`), submits them to a conversion service, polls the
service for per-file status on a 2-second interval, and renders results.
Below, each function of the script that the specification talks about is
embedded as a pure Lean function over an explicit state:

* JavaScript arrays become `List`, object fields become structure fields;
* truthiness of a string-valued field (`result.fileId`, `result.convertedName`)
  is modelled by `truthy` (absent or empty string is falsy);
* DOM writes are irrelevant to the claims and are dropped; user-visible
  notifications are returned explicitly as values;
* the interval created by `processConvertedFiles` is modelled by an explicit
  `PollTimer` component of a `World`: the source keeps the handle in a local
  variable of `processConvertedFiles`, so no other function can clear it;
* network responses are passed in as explicit data (`StatusData`,
  `SubmitResponse`), a failing request being `none` / `networkError`;
* JavaScript `Math.round` on the nonnegative rationals that occur here is
  floor(x + 1/2), computed exactly on `Nat` as `(2*num + den) / (2*den)`.
-/

/-- A member of a JS `FileList`: only `name`, `size` and `type` are read by
the script. -/
structure JSFile where
  name : String
  size : Nat
  type : String
deriving DecidableEq

/-- One entry of `appState.results`, as produced by the service and mutated
by the poll loop (`result.status = statusData.status` etc.).  Fields that the
service may omit are `Option`/defaulted. -/
structure ConversionResult where
  originalName : String := ""
  convertedName : String := ""
  status : String := "pending"
  fileId : Option String := none
  progress : Option Nat := none
  size : Nat := 0
deriving DecidableEq

/-- Body of a `GET /status/fileId` response. -/
structure StatusData where
  status : String
  progress : Option Nat := none
deriving DecidableEq

/-- JS truthiness of an optional string field: `undefined` and `""` are falsy. -/
def truthy : Option String → Bool
  | none => false
  | some s => s != ""

/-- The PDF test used by the filter in `addFiles`: the media type equals
application/pdf exactly. -/
def isPdf (f : JSFile) : Bool := f.type == "application/pdf"

/-- The duplicate test of `addFiles`: some existing file has the same
`name` and `size`. -/
def isDuplicate (existing : List JSFile) (f : JSFile) : Bool :=
  existing.any fun e => e.name == f.name && e.size == f.size

/-- Embeds `addFiles` (script.js 76-106): filter candidates to PDFs; if none,
warn and keep state; filter out (name,size) duplicates of existing entries;
if nothing new, warn and keep state; otherwise append the survivors.  Returns
the new `files` list and the notification (message, type) if one is shown. -/
def addFiles (st : List JSFile) (candidates : List JSFile) :
    List JSFile × Option (String × String) :=
  let pdfFiles := candidates.filter isPdf
  if pdfFiles.isEmpty then
    (st, some ("Please select PDF files only", "error"))
  else
    let newFiles := pdfFiles.filter fun f => ! isDuplicate st f
    if newFiles.isEmpty then
      (st, some ("These files are already added", "warning"))
    else
      (st ++ newFiles, none)

/-- Embeds `removeFile` (script.js 108-112): `files.splice(index, 1)`.
JavaScript `splice` clamps: a negative `index` counts from the end of the
array (and is clamped to 0), an `index` past the end deletes nothing. -/
def removeFile {α : Type} (files : List α) (index : Int) : List α :=
  let len := files.length
  let start := if index < 0 then (index + len).toNat else min index.toNat len
  files.take start ++ files.drop (start + 1)

def API_BASE_URL : String := "http://localhost:5000/api"

/-- Embeds `Math.round((completed / total) * 100)` of `updateProgress`;
`none` models the `NaN` produced by `0 / 0`. -/
def jsPercent (completed total : Nat) : Option Nat :=
  if total = 0 then none else some ((200 * completed + total) / (2 * total))

/-- The immediately observable effect of `processConvertedFiles(results)`
(script.js 225-266) before any interval tick fires. -/
structure ProcessOutcome where
  /-- Holds `some p` when `updateProgress` was called showing percentage `p`
  (`some none` meaning NaN percent); `none` when it was not called. -/
  progressUpdate : Option (Option Nat)
  /-- whether `setInterval` was called (a polling loop started) -/
  pollingStarted : Bool
  /-- whether `finishConversion` was called (the Done state) -/
  finished : Bool
deriving DecidableEq

/-- Embeds `processConvertedFiles` up to its first suspension: the fast path
(every result already has status "success") shows `100 * total / total`
percent and finishes with no interval; otherwise `setInterval` starts and
nothing is displayed until the first tick. -/
def processConvertedFiles (results : List ConversionResult) : ProcessOutcome :=
  if results.all (fun r => r.status == "success") then
    { progressUpdate := some (jsPercent results.length results.length),
      pollingStarted := false, finished := true }
  else
    { progressUpdate := none, pollingStarted := true, finished := false }

/-- One iteration of the `for` loop in the poll tick (script.js 239-257) on a
single result.  `server fid` is the parsed body of `GET /status/fid`, `none`
being a failed request (the `catch`: logged, item skipped).  Returns the
updated result, the increment to the captured `completed` counter (1 exactly
when the response status is "completed"), and the fileIds queried. -/
def pollItem (server : String → Option StatusData) (r : ConversionResult) :
    ConversionResult × Nat × List String :=
  if r.status != "success" && truthy r.fileId then
    match r.fileId with
    | some fid =>
      match server fid with
      | some sd =>
        ({ r with status := sd.status, progress := sd.progress },
         (if sd.status == "completed" then 1 else 0), [fid])
      | none => (r, 0, [fid])
    | none => (r, 0, [])
  else
    (r, 0, [])

/-- The whole `for` loop of one tick: updated results list, total increment
to `completed`, and the status queries issued, in order. -/
def pollTick (server : String → Option StatusData) :
    List ConversionResult → List ConversionResult × Nat × List String
  | [] => ([], 0, [])
  | r :: rs =>
    let (r', d, q) := pollItem server r
    let (rs', d', q') := pollTick server rs
    (r' :: rs', d + d', q ++ q')

/-- The `appState` object of the script. -/
structure AppState where
  files : List JSFile := []
  converting : Bool := false
  results : List ConversionResult := []
deriving DecidableEq

/-- The interval created by `processConvertedFiles`: its callback closes over
the `results` array it was given (the array `appState.results` pointed to at
creation time) and over the `completed` counter.  The handle `checkInterval`
is a local variable of `processConvertedFiles`; no other function of the
script holds a reference to it. -/
structure PollTimer where
  results : List ConversionResult
  completed : Nat
deriving DecidableEq

/-- The mutable world of the script: `appState` plus the poll interval, if
one is scheduled.  In the source, `timer.results` is the very array object
that `appState.results` pointed to when the interval was created; theorems
therefore inspect the timer component for post-tick result contents. -/
structure World where
  app : AppState
  timer : Option PollTimer
deriving DecidableEq

/-- Embeds `resetToUpload` (script.js 327-343): empties `appState.files` and
`appState.results`, sets `converting = false`, and restores the upload view.
The body contains no `clearInterval`, so a scheduled interval is untouched. -/
def resetToUpload (w : World) : World :=
  { w with app := { files := [], converting := false, results := [] } }

/-- One firing of the interval callback (script.js 238-265): run the `for`
loop over the captured results, add the increments of the tick to the captured
`completed`, call `updateProgress`, and when `completed === total` clear the
interval and call `finishConversion` (which sets `converting = false`).
Returns the new world and the status queries issued by this tick. -/
def intervalTick (server : String → Option StatusData) (w : World) :
    World × List String :=
  match w.timer with
  | none => (w, [])
  | some t =>
    let total := t.results.length
    let (rs, d, qs) := pollTick server t.results
    let completed := t.completed + d
    if completed = total then
      ({ app := { w.app with converting := false }, timer := none }, qs)
    else
      ({ app := w.app, timer := some { results := rs, completed := completed } }, qs)

/-- The three ways the submit call can come back, as seen by
`convertFilesViaAPI` (script.js 181-223): a non-2xx response with a parsed
JSON body, a 2xx response with a parsed body, or a rejected
`fetch`/`json()` promise carrying an exception message. -/
inductive SubmitResponse where
  | httpError (message : Option String)
  | ok (status : String) (message : Option String) (results : List ConversionResult)
  | networkError (message : String)
deriving DecidableEq

/-- Whether the response takes `convertFilesViaAPI` into its `catch` block. -/
def SubmitResponse.isFailure : SubmitResponse → Bool
  | .httpError _ => true
  | .ok s _ _ => s != "success"
  | .networkError _ => true

/-- The `message` field carried by the response, when present. -/
def SubmitResponse.serverMessage : SubmitResponse → Option String
  | .httpError m => m
  | .ok _ m _ => m
  | .networkError m => some m

/-- Embeds `convertFilesViaAPI` (script.js 181-223) as a function of the
submit response: on any failure the `catch` block shows a notification whose
text is "Error: " followed by the exception message, and calls
`resetToUpload`; on success it stores the results and either finishes at
once (fast path) or starts the poll interval, as in `processConvertedFiles`.
Returns the new world and the notification message, if one is shown. -/
def convertFilesViaAPI (w : World) (resp : SubmitResponse) :
    World × Option String :=
  match resp with
  | .httpError msg =>
    (resetToUpload w, some ("Error: " ++ msg.getD "Conversion failed"))
  | .ok status msg results =>
    if status = "success" then
      if (processConvertedFiles results).pollingStarted then
        ({ app := { w.app with results := results },
           timer := some { results := results, completed := 0 } }, none)
      else
        ({ app := { w.app with results := results, converting := false },
           timer := w.timer }, none)
    else
      (resetToUpload w, some ("Error: " ++ msg.getD "Conversion error occurred"))
  | .networkError msg =>
    (resetToUpload w, some ("Error: " ++ msg))

/-- What a call to `downloadFile(index)` (script.js 303-325) does. -/
inductive DownloadOutcome where
  /-- Means `appState.results[index]` is `undefined`, so reading `.fileId`
  throws a `TypeError` before anything else happens. -/
  | fault
  /-- the guard fired: `showNotification` with the message, no download -/
  | warned (message : String)
  /-- the browser download was triggered with this URL and filename -/
  | started (url : String) (filename : String)
deriving DecidableEq

/-- Embeds `downloadFile`: reads `appState.results[index]` (faulting when
the index has no entry), warns when `fileId` is falsy, otherwise triggers
the download of the download endpoint with the fileId, named
`convertedName` (or the fixed default when that is falsy). -/
def downloadFile (results : List ConversionResult) (index : Nat) :
    DownloadOutcome :=
  match results.get? index with
  | none => .fault
  | some r =>
    match r.fileId with
    | none => .warned "File ID not available"
    | some fid =>
      if fid = "" then .warned "File ID not available"
      else
        .started (API_BASE_URL ++ "/download/" ++ fid)
          (if r.convertedName = "" then "presentation.pptx" else r.convertedName)

/-- Renders the JS number `h / 100` (with `h : Nat`) the way JavaScript
prints it after `Math.round(x * 100) / 100`: no trailing zeros, no trailing
point. -/
def renderHundredths (h : Nat) : String :=
  if h % 100 = 0 then toString (h / 100)
  else if h % 10 = 0 then toString (h / 100) ++ "." ++ toString ((h / 10) % 10)
  else if h % 100 < 10 then toString (h / 100) ++ ".0" ++ toString (h % 100)
  else toString (h / 100) ++ "." ++ toString (h % 100)

/-- The `sizes` array of `formatFileSize`. -/
def sizes : List String := ["Bytes", "KB", "MB", "GB"]

/-- Looks up `sizes[i]` for `i = Math.floor(Math.log(bytes) / Math.log(1024))`;
the exact floor logarithm is `Nat.log`.  `none` models the out-of-bounds
access yielding `undefined`. -/
def unitFor (bytes : Nat) : Option String :=
  sizes.get? (Nat.log 1024 bytes)

/-- Embeds `formatFileSize` (script.js 348-356): the value
`Math.round((bytes / pow(1024, i)) * 100) / 100` concatenated with a space
and the unit, with the JS concatenation rendering an out-of-bounds lookup
as the string "undefined". -/
def formatFileSize (bytes : Nat) : String :=
  if bytes = 0 then "0 Bytes"
  else
    let i := Nat.log 1024 bytes
    renderHundredths ((200 * bytes + 1024 ^ i) / (2 * 1024 ^ i)) ++ " " ++
      ((unitFor bytes).getD "undefined")

/-- The replacement map of `escapeHtml` (script.js 358-367), on one
character. -/
def escapeCharL (c : Char) : List Char :=
  if c = '&' then ['&', 'a', 'm', 'p', ';']
  else if c = '<' then ['&', 'l', 't', ';']
  else if c = '>' then ['&', 'g', 't', ';']
  else if c = '"' then ['&', 'q', 'u', 'o', 't', ';']
  else if c = '\'' then ['&', '#', '0', '3', '9', ';']
  else [c]

/-- The global replacement of `escapeHtml` over the character list. -/
def escapeList : List Char → List Char
  | [] => []
  | c :: cs => escapeCharL c ++ escapeList cs

/-- Embeds `escapeHtml(text)`. -/
def escapeHtml (s : String) : String := String.mk (escapeList s.data)

/-- Verification helper (not in the source): recognizes the tail of one of
the five entities right after an ampersand, returning the decoded character
and the number of characters consumed. -/
def matchEntity (l : List Char) : Option (Char × Nat) :=
  if l.take 4 = ['a', 'm', 'p', ';'] then some ('&', 4)
  else if l.take 3 = ['l', 't', ';'] then some ('<', 3)
  else if l.take 3 = ['g', 't', ';'] then some ('>', 3)
  else if l.take 5 = ['q', 'u', 'o', 't', ';'] then some ('"', 5)
  else if l.take 5 = ['#', '0', '3', '9', ';'] then some ('\'', 5)
  else none

/-- Verification helper (not in the source): the standard greedy decoder for
the five entities produced by `escapeHtml`; any other character is passed
through.  Round-tripping through it shows no information is lost by
escaping. -/
def unescapeList (l : List Char) : List Char :=
  match l with
  | [] => []
  | c :: rest =>
    if c = '&' then
      match matchEntity rest with
      | some (d, k) => d :: unescapeList (rest.drop k)
      | none => c :: unescapeList rest
    else c :: unescapeList rest
termination_by l.length
decreasing_by
  all_goals simp [List.length_drop]
  omega

/-- Verification helper: decoder on strings. -/
def unescapeHtml (s : String) : String := String.mk (unescapeList s.data)

/-- The five entity strings `escapeHtml` can emit. -/
def entityList : List (List Char) :=
  [['&', 'a', 'm', 'p', ';'], ['&', 'l', 't', ';'], ['&', 'g', 't', ';'],
   ['&', 'q', 'u', 'o', 't', ';'], ['&', '#', '0', '3', '9', ';']]

/-- Every ampersand in `l` is the start of one of the five entities: no raw
ampersand survives. -/
def ampEscaped (l : List Char) : Prop :=
  ∀ t r, t <:+ l → t = '&' :: r → ∃ e tail, e ∈ entityList ∧ t = e ++ tail

/-- Example file: a PDF. -/
def samplePdf : JSFile :=
  { name := "report.pdf", size := 2048, type := "application/pdf" }

/-- Example file: not a PDF. -/
def sampleTxt : JSFile :=
  { name := "notes.txt", size := 100, type := "text/plain" }

/-- Example file: a second, distinct PDF. -/
def samplePdf2 : JSFile :=
  { name := "slides.pdf", size := 555, type := "application/pdf" }

/-- Example result: one pending item carrying a fileId. -/
def pendingResult : ConversionResult := { status := "pending", fileId := some "f1" }

/-- Status server that reports every file as done, with status "success". -/
def successServer : String → Option StatusData :=
  fun _ => some { status := "success", progress := some 100 }

/-- Status server that keeps answering "pending". -/
def pendingServer : String → Option StatusData :=
  fun _ => some { status := "pending", progress := some 10 }

/-- Status server answering "completed" for file f1 and "pending" for every
other file. -/
def completedServer : String → Option StatusData := fun fid =>
  if fid = "f1" then some { status := "completed", progress := some 100 }
  else some { status := "pending", progress := some 10 }

/-- Example world in the Polling phase with one pending item. -/
def pollingWorld : World :=
  { app := { files := [], converting := true, results := [pendingResult] },
    timer := some { results := [pendingResult], completed := 0 } }

/-- Two pending items with fileIds f1 and f2. -/
def twoPending : List ConversionResult :=
  [{ status := "pending", fileId := some "f1" },
   { status := "pending", fileId := some "f2" }]

/-- Example world in the Polling phase with the two pending items. -/
def pollingWorldB : World :=
  { app := { files := [], converting := true, results := twoPending },
    timer := some { results := twoPending, completed := 0 } }

/-- Example world in the Polling phase that still holds a selected file. -/
def pollingWorldC : World :=
  { app := { files := [samplePdf], converting := true, results := [pendingResult] },
    timer := some { results := [pendingResult], completed := 0 } }

/-- Example world holding a selection and a result, used to exercise the
failure reset. -/
def busyWorld : World :=
  { app := { files := [samplePdf], converting := true, results := [pendingResult] },
    timer := none }

/-! ## Helper lemmas -/

/-- The percentage shown when completed equals total is 100, for a positive
total. -/
theorem jsPercent_self {n : Nat} (h : n ≠ 0) : jsPercent n n = some 100 := by
  unfold jsPercent
  rw [if_neg h]
  congr 1
  have h2 : 0 < 2 * n := by omega
  have h3 : 200 * n + n = 2 * n * 100 + n := by ring
  rw [h3, Nat.mul_add_div h2, Nat.div_eq_of_lt (by omega)]

/-- Entity recognition after an ampersand: the amp entity. -/
theorem matchEntity_amp (t : List Char) :
    matchEntity ('a' :: 'm' :: 'p' :: ';' :: t) = some ('&', 4) := by
  unfold matchEntity
  simp

/-- Entity recognition after an ampersand: the lt entity. -/
theorem matchEntity_lt (t : List Char) :
    matchEntity ('l' :: 't' :: ';' :: t) = some ('<', 3) := by
  unfold matchEntity
  simp

/-- Entity recognition after an ampersand: the gt entity. -/
theorem matchEntity_gt (t : List Char) :
    matchEntity ('g' :: 't' :: ';' :: t) = some ('>', 3) := by
  unfold matchEntity
  simp

/-- Entity recognition after an ampersand: the quot entity. -/
theorem matchEntity_quot (t : List Char) :
    matchEntity ('q' :: 'u' :: 'o' :: 't' :: ';' :: t) = some ('"', 5) := by
  unfold matchEntity
  simp

/-- Entity recognition after an ampersand: the numeric apostrophe entity. -/
theorem matchEntity_num (t : List Char) :
    matchEntity ('#' :: '0' :: '3' :: '9' :: ';' :: t) = some ('\'', 5) := by
  unfold matchEntity
  simp

/-- Decoder step on an ampersand followed by a recognized entity tail. -/
theorem unescapeList_cons_amp {rest : List Char} {d : Char} {k : Nat}
    (hm : matchEntity rest = some (d, k)) :
    unescapeList ('&' :: rest) = d :: unescapeList (rest.drop k) := by
  rw [unescapeList]
  simp [hm]

/-- Decoder step on any character other than an ampersand. -/
theorem unescapeList_cons_ne_amp {c : Char} (t : List Char) (h : c ≠ '&') :
    unescapeList (c :: t) = c :: unescapeList t := by
  rw [unescapeList]
  simp [h]

/-- Decoding an escaped character list restores it exactly. -/
theorem unescape_escape (cs : List Char) : unescapeList (escapeList cs) = cs := by
  induction cs with
  | nil =>
    rw [show escapeList [] = [] from rfl, unescapeList]
  | cons c cs ih =>
    rw [show escapeList (c :: cs) = escapeCharL c ++ escapeList cs from rfl]
    by_cases h1 : c = '&'
    · subst h1
      rw [show (escapeCharL '&' ++ escapeList cs) =
        '&' :: 'a' :: 'm' :: 'p' :: ';' :: escapeList cs from rfl]
      rw [unescapeList_cons_amp (matchEntity_amp _)]
      simp [ih]
    · by_cases h2 : c = '<'
      · subst h2
        rw [show (escapeCharL '<' ++ escapeList cs) =
          '&' :: 'l' :: 't' :: ';' :: escapeList cs from rfl]
        rw [unescapeList_cons_amp (matchEntity_lt _)]
        simp [ih]
      · by_cases h3 : c = '>'
        · subst h3
          rw [show (escapeCharL '>' ++ escapeList cs) =
            '&' :: 'g' :: 't' :: ';' :: escapeList cs from rfl]
          rw [unescapeList_cons_amp (matchEntity_gt _)]
          simp [ih]
        · by_cases h4 : c = '"'
          · subst h4
            rw [show (escapeCharL '"' ++ escapeList cs) =
              '&' :: 'q' :: 'u' :: 'o' :: 't' :: ';' :: escapeList cs from rfl]
            rw [unescapeList_cons_amp (matchEntity_quot _)]
            simp [ih]
          · by_cases h5 : c = '\''
            · subst h5
              rw [show (escapeCharL '\'' ++ escapeList cs) =
                '&' :: '#' :: '0' :: '3' :: '9' :: ';' :: escapeList cs from rfl]
              rw [unescapeList_cons_amp (matchEntity_num _)]
              simp [ih]
            · have hb : escapeCharL c = [c] := by
                simp [escapeCharL, h1, h2, h3, h4, h5]
              rw [hb, List.singleton_append, unescapeList_cons_ne_amp _ h1, ih]

/-- A single replacement block contains none of the four markup-forming
characters. -/
theorem escapeCharL_no_markup (c : Char) :
    ∀ x ∈ escapeCharL c, x ≠ '<' ∧ x ≠ '>' ∧ x ≠ '"' ∧ x ≠ '\'' := by
  intro x hx
  unfold escapeCharL at hx
  split_ifs at hx with h1 h2 h3 h4 h5
  · simp at hx
    rcases hx with rfl | rfl | rfl | rfl | rfl <;> decide
  · simp at hx
    rcases hx with rfl | rfl | rfl | rfl <;> decide
  · simp at hx
    rcases hx with rfl | rfl | rfl | rfl <;> decide
  · simp at hx
    rcases hx with rfl | rfl | rfl | rfl | rfl | rfl <;> decide
  · simp at hx
    rcases hx with rfl | rfl | rfl | rfl | rfl | rfl <;> decide
  · simp at hx
    subst hx
    exact ⟨h2, h3, h4, h5⟩

/-- The escaped list contains none of the four markup-forming characters. -/
theorem escapeList_no_markup (cs : List Char) :
    ∀ x ∈ escapeList cs, x ≠ '<' ∧ x ≠ '>' ∧ x ≠ '"' ∧ x ≠ '\'' := by
  induction cs with
  | nil => intro x hx; simp [escapeList] at hx
  | cons c cs ih =>
    intro x hx
    rw [show escapeList (c :: cs) = escapeCharL c ++ escapeList cs from rfl] at hx
    rcases List.mem_append.mp hx with hx | hx
    · exact escapeCharL_no_markup c x hx
    · exact ih x hx

/-- A suffix of an append is a suffix of the right part, or a nonempty
suffix of the left part followed by the whole right part. -/
theorem suffix_append_cases {α : Type} {t xs ys : List α} (h : t <:+ xs ++ ys) :
    t <:+ ys ∨ ∃ u, u <:+ xs ∧ u ≠ [] ∧ t = u ++ ys := by
  induction xs with
  | nil => left; simpa using h
  | cons x xs ih =>
    rcases List.suffix_cons_iff.mp (by simpa using h) with h' | h'
    · right
      exact ⟨x :: xs, List.suffix_rfl, by simp, by simpa using h'⟩
    · rcases ih h' with h'' | ⟨u, hu, hne, rfl⟩
      · left; exact h''
      · right; exact ⟨u, hu.trans (List.suffix_cons x xs), hne, rfl⟩

/-- A nonempty suffix of a replacement block that starts an ampersand run is
the whole block, hence one of the five entities. -/
theorem escapeCharL_amp_block (c : Char) (u : List Char) (hu : u <:+ escapeCharL c)
    (hne : u ≠ []) (m r : List Char) (h : u ++ m = '&' :: r) :
    ∃ e tail, e ∈ entityList ∧ u ++ m = e ++ tail := by
  have hu' := (List.mem_tails _ _).mpr hu
  unfold escapeCharL at hu'
  split_ifs at hu' with h1 h2 h3 h4 h5
  · simp [List.tails_cons] at hu'
    rcases hu' with rfl | rfl | rfl | rfl | rfl | rfl
    · exact ⟨_, m, by simp [entityList], rfl⟩
    · injection h with hh _; exact absurd hh (by decide)
    · injection h with hh _; exact absurd hh (by decide)
    · injection h with hh _; exact absurd hh (by decide)
    · injection h with hh _; exact absurd hh (by decide)
    · exact absurd rfl hne
  · simp [List.tails_cons] at hu'
    rcases hu' with rfl | rfl | rfl | rfl | rfl
    · exact ⟨_, m, by simp [entityList], rfl⟩
    · injection h with hh _; exact absurd hh (by decide)
    · injection h with hh _; exact absurd hh (by decide)
    · injection h with hh _; exact absurd hh (by decide)
    · exact absurd rfl hne
  · simp [List.tails_cons] at hu'
    rcases hu' with rfl | rfl | rfl | rfl | rfl
    · exact ⟨_, m, by simp [entityList], rfl⟩
    · injection h with hh _; exact absurd hh (by decide)
    · injection h with hh _; exact absurd hh (by decide)
    · injection h with hh _; exact absurd hh (by decide)
    · exact absurd rfl hne
  · simp [List.tails_cons] at hu'
    rcases hu' with rfl | rfl | rfl | rfl | rfl | rfl | rfl
    · exact ⟨_, m, by simp [entityList], rfl⟩
    · injection h with hh _; exact absurd hh (by decide)
    · injection h with hh _; exact absurd hh (by decide)
    · injection h with hh _; exact absurd hh (by decide)
    · injection h with hh _; exact absurd hh (by decide)
    · injection h with hh _; exact absurd hh (by decide)
    · exact absurd rfl hne
  · simp [List.tails_cons] at hu'
    rcases hu' with rfl | rfl | rfl | rfl | rfl | rfl | rfl
    · exact ⟨_, m, by simp [entityList], rfl⟩
    · injection h with hh _; exact absurd hh (by decide)
    · injection h with hh _; exact absurd hh (by decide)
    · injection h with hh _; exact absurd hh (by decide)
    · injection h with hh _; exact absurd hh (by decide)
    · injection h with hh _; exact absurd hh (by decide)
    · exact absurd rfl hne
  · simp [List.tails_cons] at hu'
    rcases hu' with rfl | rfl
    · injection h with hh _; exact absurd hh h1
    · exact absurd rfl hne

/-- Every ampersand of an escaped list starts one of the five entities. -/
theorem ampEscaped_escapeList (cs : List Char) : ampEscaped (escapeList cs) := by
  induction cs with
  | nil =>
    intro t r ht heq
    have ht' : t = [] := by simpa [escapeList] using ht
    subst ht'
    simp at heq
  | cons c cs ih =>
    intro t r ht heq
    rw [show escapeList (c :: cs) = escapeCharL c ++ escapeList cs from rfl] at ht
    rcases suffix_append_cases ht with h' | ⟨u, hu, hne, rfl⟩
    · exact ih t r h' heq
    · exact escapeCharL_amp_block c u hu hne _ r heq

/-! ## Claims -/

/-- C1: the claim fails on the code.  The poll tick does query exactly the
non-success items carrying a fileId, but the loop counts only responses
whose status equals "completed" toward termination, while the fast path and
the query filter treat "success" as terminal.  With one pending item whose
status query answers "success", after one tick every item reports success
yet the counter stays 0, the interval is not cleared, and every further tick
is a no-op fixpoint with the timer still active, so Done is never reached.
With two pending items and a server answering "completed" for the first,
that item is re-queried and re-counted on the second tick, so the interval
stops and the session finishes while the second item never reported
success. -/
theorem c1_poll_termination_bug :
    ((intervalTick successServer pollingWorld).2 = ["f1"] ∧
      (intervalTick successServer pollingWorld).1.timer =
        some { results := [{ status := "success", fileId := some "f1",
                             progress := some 100 }],
               completed := 0 } ∧
      intervalTick successServer (intervalTick successServer pollingWorld).1 =
        ((intervalTick successServer pollingWorld).1, [])) ∧
    ((intervalTick completedServer pollingWorldB).1.timer =
        some { results := [{ status := "completed", fileId := some "f1",
                             progress := some 100 },
                           { status := "pending", fileId := some "f2",
                             progress := some 10 }],
               completed := 1 } ∧
      (intervalTick completedServer
        ((intervalTick completedServer pollingWorldB).1)).1.timer = none ∧
      (intervalTick completedServer
        ((intervalTick completedServer pollingWorldB).1)).1.app.converting = false ∧
      (intervalTick completedServer
        ((intervalTick completedServer pollingWorldB).1)).2 = ["f1", "f2"]) := by
  decide

/-- C2: the claim fails on the code.  `resetToUpload` clears the selection,
the results and the converting flag, but contains no `clearInterval` (the
interval handle is a local variable of `processConvertedFiles`), so after a
reset during Polling the timer is still scheduled, and its next tick issues
a further status query. -/
theorem c2_reset_leaves_timer_active :
    (resetToUpload pollingWorldC).app.results = [] ∧
    (resetToUpload pollingWorldC).app.files = [] ∧
    (resetToUpload pollingWorldC).app.converting = false ∧
    (resetToUpload pollingWorldC).timer = pollingWorldC.timer ∧
    (intervalTick pendingServer (resetToUpload pollingWorldC)).2 = ["f1"] ∧
    (intervalTick pendingServer (resetToUpload pollingWorldC)).1.timer ≠ none := by
  decide

/-- C3 counterexample: an out-of-range negative index does mutate the list.
JavaScript `splice` interprets index -1 as the last element, so `removeFile`
with index -1 on a one-element list removes that element instead of leaving
the list unchanged. -/
theorem c3_counterexample : removeFile [samplePdf] (-1) ≠ [samplePdf] := by
  decide

/-- C3 (amended): `removeFile` with a nonnegative out-of-range index leaves
the list unchanged without faulting; with a valid index it removes exactly
the element at that index, preserving the order of the rest; a negative
index is interpreted from the end of the list (clamped to the front), as
`splice` does. -/
theorem c3_removeFile_splice {α : Type} (files : List α) (index : Int) :
    ((files.length : Int) ≤ index → removeFile files index = files) ∧
    (0 ≤ index → index < (files.length : Int) →
      removeFile files index =
        files.take index.toNat ++ files.drop (index.toNat + 1)) ∧
    (index < 0 →
      removeFile files index =
        files.take (index + (files.length : Int)).toNat ++
          files.drop ((index + (files.length : Int)).toNat + 1)) := by
  refine ⟨?_, ?_, ?_⟩
  · intro h
    have h0 : ¬ index < 0 := by omega
    have hle : files.length ≤ index.toNat := by omega
    simp only [removeFile, if_neg h0]
    rw [min_eq_right hle, List.take_length, List.drop_eq_nil_of_le (by omega),
      List.append_nil]
  · intro h0 hlt
    have hlt' : index.toNat < files.length := by omega
    simp only [removeFile, if_neg (show ¬ index < 0 by omega)]
    rw [min_eq_left (le_of_lt hlt')]
  · intro hneg
    simp only [removeFile, if_pos hneg]

/-- Witness for the amended C3 statement on a three-element list. -/
theorem c3_removeFile_splice_witness :
    removeFile ([10, 20, 30] : List Nat) 5 = [10, 20, 30] ∧
    removeFile ([10, 20, 30] : List Nat) 1 =
      [10, 20, 30].take (1 : Int).toNat ++ [10, 20, 30].drop ((1 : Int).toNat + 1) ∧
    removeFile ([10, 20, 30] : List Nat) (-2) =
      [10, 20, 30].take ((-2 : Int) + (([10, 20, 30] : List Nat).length : Int)).toNat ++
        [10, 20, 30].drop (((-2 : Int) + (([10, 20, 30] : List Nat).length : Int)).toNat + 1) :=
  ⟨(c3_removeFile_splice [10, 20, 30] 5).1 (by norm_num),
   (c3_removeFile_splice [10, 20, 30] 1).2.1 (by norm_num) (by norm_num),
   (c3_removeFile_splice [10, 20, 30] (-2)).2.2 (by norm_num)⟩

/-- C4: `addFiles` leaves the selection unchanged when the batch holds no
PDF item, or when every PDF item duplicates an existing (name, size) pair;
otherwise it appends exactly the novel PDF items, in arrival order, after
the existing entries, which keep their prior order. -/
theorem c4_addFiles (st candidates : List JSFile) :
    (candidates.filter isPdf = [] → (addFiles st candidates).1 = st) ∧
    ((∀ f ∈ candidates.filter isPdf, isDuplicate st f = true) →
      (addFiles st candidates).1 = st) ∧
    ((candidates.filter isPdf).filter (fun f => ! isDuplicate st f) ≠ [] →
      (addFiles st candidates).1 =
        st ++ (candidates.filter isPdf).filter (fun f => ! isDuplicate st f)) := by
  refine ⟨?_, ?_, ?_⟩
  · intro h
    simp [addFiles, h]
  · intro h
    by_cases hp : candidates.filter isPdf = []
    · simp [addFiles, hp]
    · have hnew : (candidates.filter isPdf).filter (fun f => ! isDuplicate st f) = [] := by
        rw [List.filter_eq_nil_iff]
        intro a ha
        simp [h a ha]
      have h1 : ¬ ((candidates.filter isPdf).isEmpty = true) := by
        simpa [List.isEmpty_iff] using hp
      simp only [addFiles]
      rw [if_neg h1, if_pos (by simpa [List.isEmpty_iff] using hnew)]
  · intro h
    have hp : candidates.filter isPdf ≠ [] := by
      intro he
      rw [he] at h
      simp at h
    have h1 : ¬ ((candidates.filter isPdf).isEmpty = true) := by
      simpa [List.isEmpty_iff] using hp
    have h2 : ¬ (((candidates.filter isPdf).filter
        (fun f => ! isDuplicate st f)).isEmpty = true) := by
      simpa [List.isEmpty_iff] using h
    simp only [addFiles]
    rw [if_neg h1, if_neg h2]

/-- Witness for C4 on concrete batches: a non-PDF batch, an all-duplicate
batch, and a mixed batch. -/
theorem c4_addFiles_witness :
    (addFiles [samplePdf] [sampleTxt]).1 = [samplePdf] ∧
    (addFiles [samplePdf] [samplePdf, sampleTxt]).1 = [samplePdf] ∧
    (addFiles [samplePdf] [sampleTxt, samplePdf2, samplePdf]).1 =
      [samplePdf] ++ ([sampleTxt, samplePdf2, samplePdf].filter isPdf).filter
        (fun f => ! isDuplicate [samplePdf] f) :=
  ⟨(c4_addFiles _ _).1 (by decide), (c4_addFiles _ _).2.1 (by decide),
   (c4_addFiles _ _).2.2 (by decide)⟩

/-- C5 counterexample: on an empty submit response the fast path is taken
(the all-success test is vacuously true) and no polling starts, but
`updateProgress(0, 0)` divides zero by zero, so the displayed percentage is
NaN, not 100. -/
theorem c5_counterexample :
    (processConvertedFiles []).finished = true ∧
    (processConvertedFiles []).pollingStarted = false ∧
    (processConvertedFiles []).progressUpdate = some none ∧
    (processConvertedFiles []).progressUpdate ≠ some (some 100) := by
  decide

/-- C5 (amended): for every non-empty submit response whose items all carry
status "success", `processConvertedFiles` shows 100 percent, starts no
polling loop (hence issues no status query) and finishes at once. -/
theorem c5_fast_path (results : List ConversionResult) (hne : results ≠ [])
    (hall : results.all (fun r => r.status == "success") = true) :
    processConvertedFiles results =
      { progressUpdate := some (some 100), pollingStarted := false,
        finished := true } := by
  have hlen : results.length ≠ 0 := fun h0 => hne (List.length_eq_zero.mp h0)
  simp [processConvertedFiles, hall, jsPercent_self hlen]

/-- Witness for C5 on a one-element all-success response. -/
theorem c5_fast_path_witness :
    ([({ status := "success" } : ConversionResult)] ≠ ([] : List ConversionResult)) ∧
    ([({ status := "success" } : ConversionResult)].all
      (fun r => r.status == "success") = true) ∧
    processConvertedFiles [({ status := "success" } : ConversionResult)] =
      { progressUpdate := some (some 100), pollingStarted := false,
        finished := true } :=
  ⟨by decide, by decide, c5_fast_path _ (by decide) (by decide)⟩

/-- C6: every submission failure (non-2xx response, body status other than
"success", or network-level exception) resets the selection and the results
to empty, sets converting to false, and shows a notification whose text is
the server-supplied message or the fixed fallback. -/
theorem c6_submission_failure_resets (w : World) (resp : SubmitResponse)
    (h : resp.isFailure = true) :
    (convertFilesViaAPI w resp).1.app.files = [] ∧
    (convertFilesViaAPI w resp).1.app.results = [] ∧
    (convertFilesViaAPI w resp).1.app.converting = false ∧
    ∃ m, (convertFilesViaAPI w resp).2 = some ("Error: " ++ m) ∧
      (resp.serverMessage = some m ∨ m = "Conversion failed" ∨
        m = "Conversion error occurred") := by
  cases resp with
  | httpError msg =>
    cases msg with
    | none => exact ⟨rfl, rfl, rfl, "Conversion failed", rfl, Or.inr (Or.inl rfl)⟩
    | some m => exact ⟨rfl, rfl, rfl, m, rfl, Or.inl rfl⟩
  | ok s msg rs =>
    have hs : s ≠ "success" := by simpa [SubmitResponse.isFailure] using h
    cases msg with
    | none =>
      refine ⟨?_, ?_, ?_, "Conversion error occurred", ?_, Or.inr (Or.inr rfl)⟩ <;>
        simp [convertFilesViaAPI, hs, resetToUpload]
    | some m =>
      refine ⟨?_, ?_, ?_, m, ?_, Or.inl rfl⟩ <;>
        simp [convertFilesViaAPI, hs, resetToUpload]
  | networkError m => exact ⟨rfl, rfl, rfl, m, rfl, Or.inl rfl⟩

/-- Witness for C6: an HTTP error without a message fully resets a busy
world. -/
theorem c6_submission_failure_resets_witness :
    (SubmitResponse.httpError none).isFailure = true ∧
    (convertFilesViaAPI busyWorld (SubmitResponse.httpError none)).1.app.files = [] ∧
    (convertFilesViaAPI busyWorld (SubmitResponse.httpError none)).1.app.results = [] ∧
    (convertFilesViaAPI busyWorld (SubmitResponse.httpError none)).1.app.converting = false :=
  ⟨rfl, (c6_submission_failure_resets busyWorld (SubmitResponse.httpError none) rfl).1,
    (c6_submission_failure_resets busyWorld (SubmitResponse.httpError none) rfl).2.1,
    (c6_submission_failure_resets busyWorld (SubmitResponse.httpError none) rfl).2.2.1⟩

/-- C7: `formatFileSize` maps 0 to "0 Bytes", 1024 to "1 KB" and 1536 to
"1.5 KB", using 1024-based units rounded to two decimal places. -/
theorem c7_formatFileSize_examples :
    formatFileSize 0 = "0 Bytes" ∧ formatFileSize 1024 = "1 KB" ∧
    formatFileSize 1536 = "1.5 KB" := by
  have h1 : Nat.log 1024 1024 = 1 :=
    Nat.log_eq_of_pow_le_of_lt_pow (by norm_num) (by norm_num)
  have h2 : Nat.log 1024 1536 = 1 :=
    Nat.log_eq_of_pow_le_of_lt_pow (by norm_num) (by norm_num)
  refine ⟨rfl, ?_, ?_⟩
  · simp only [formatFileSize, unitFor, h1]
    rfl
  · simp only [formatFileSize, unitFor, h2]
    rfl

/-- C8: the output of `escapeHtml` contains no raw less-than, greater-than,
double-quote or apostrophe character; every ampersand in the output starts
one of the five entities (so no reserved character survives unescaped); and
the entity decoder restores the input exactly, so each occurrence of a
reserved character was replaced by its entity and nothing else changed. -/
theorem c8_escapeHtml_safe (s : String) :
    (∀ x ∈ (escapeHtml s).data, x ≠ '<' ∧ x ≠ '>' ∧ x ≠ '"' ∧ x ≠ '\'') ∧
    ampEscaped (escapeHtml s).data ∧
    unescapeHtml (escapeHtml s) = s := by
  refine ⟨escapeList_no_markup s.data, ampEscaped_escapeList s.data, ?_⟩
  show String.mk (unescapeList (escapeList s.data)) = s
  rw [unescape_escape]

/-- Witness for C8 on the five reserved characters plus a letter. -/
theorem c8_escapeHtml_safe_witness :
    unescapeHtml (escapeHtml (String.mk ['<', 'a', '>', '&', '"', '\''])) =
      String.mk ['<', 'a', '>', '&', '"', '\''] :=
  (c8_escapeHtml_safe _).2.2

/-- C9: for every byte count of at least 1024 to the fourth power, the unit
index reaches past the four-element sizes array, the lookup misses, and the
rendered string ends in "undefined": `formatFileSize` is not total over the
units array beyond GB. -/
theorem c9_formatFileSize_overflow (bytes : Nat) (h : 1024 ^ 4 ≤ bytes) :
    sizes.length ≤ Nat.log 1024 bytes ∧ unitFor bytes = none ∧
    ∃ v, formatFileSize bytes = v ++ "undefined" := by
  have hb : (1 : Nat) < 1024 := by norm_num
  have hn : bytes ≠ 0 := by
    intro h0
    rw [h0] at h
    norm_num at h
  have hlog : 4 ≤ Nat.log 1024 bytes := (Nat.pow_le_iff_le_log hb hn).mp h
  have hunit : unitFor bytes = none := by
    rw [unitFor, List.get?_eq_none]
    simpa [sizes] using hlog
  refine ⟨by simpa [sizes] using hlog, hunit, ?_⟩
  refine ⟨renderHundredths ((200 * bytes + 1024 ^ Nat.log 1024 bytes) /
    (2 * 1024 ^ Nat.log 1024 bytes)) ++ " ", ?_⟩
  simp [formatFileSize, hn, hunit]

/-- Witness for C9 at exactly 1024 to the fourth power (one binary
terabyte). -/
theorem c9_formatFileSize_overflow_witness :
    1024 ^ 4 ≤ 1024 ^ 4 ∧
    (sizes.length ≤ Nat.log 1024 (1024 ^ 4) ∧ unitFor (1024 ^ 4) = none ∧
      ∃ v, formatFileSize (1024 ^ 4) = v ++ "undefined") :=
  ⟨le_refl _, c9_formatFileSize_overflow (1024 ^ 4) (le_refl _)⟩

/-- C10: for every index with no entry in the results list, `downloadFile`
faults (a TypeError on reading a field of undefined) before reaching any
warning; the warned outcome occurs only when the entry exists and its
fileId is falsy, so totality requires the entry to exist. -/
theorem c10_downloadFile (results : List ConversionResult) (index : Nat) :
    (results.length ≤ index → downloadFile results index = DownloadOutcome.fault) ∧
    (∀ msg, downloadFile results index = DownloadOutcome.warned msg →
      ∃ r, results.get? index = some r ∧ truthy r.fileId = false) := by
  constructor
  · intro h
    unfold downloadFile
    rw [List.get?_eq_none.mpr h]
  · intro msg h
    unfold downloadFile at h
    split at h
    · exact DownloadOutcome.noConfusion h
    · rename_i r heq
      refine ⟨r, heq, ?_⟩
      split at h
      · rename_i hf
        simp [truthy, hf]
      · rename_i fid hf
        by_cases he : fid = ""
        · simp [truthy, hf, he]
        · rw [if_neg he] at h
          exact DownloadOutcome.noConfusion h

/-- Witness for C10: an empty results list faults at index 0, and a record
without a fileId produces the warned outcome. -/
theorem c10_downloadFile_witness :
    downloadFile ([] : List ConversionResult) 0 = DownloadOutcome.fault ∧
    ∃ r, ([({ status := "pending", fileId := none } : ConversionResult)].get? 0) =
        some r ∧ truthy r.fileId = false :=
  ⟨(c10_downloadFile [] 0).1 (by decide),
   (c10_downloadFile [{ status := "pending", fileId := none }] 0).2
     "File ID not available" (by decide)⟩
